import Mathlib

/-!
Shallow embedding of the scoring-and-attribution engine of the Neuro-ai
repository: `src/backend/scripts/cognitive_model_scorer.py` (class
`CognitiveModelScorer`) and `src/backend/scripts/shap_explainer.py`
(class `CognitiveShapExplainer`).

Conventions of the embedding:
* Python floats are modelled as `ℚ` (real arithmetic, no rounding);
  the one irrational operation, `np.std`, is modelled with `Real.sqrt`.
* A Python dict of raw features is a finite association list
  `List (String × RawVal)`; `dict.get(k, None)` is `rawGet`.
* A raw entry can be absent, NaN, `+inf`, `-inf`, or a finite value:
  the inductive `RawVal`.  Where the source applies IEEE arithmetic to a
  non-finite value the embedding records the IEEE result directly
  (for example `min(1.0, +inf) = 1.0`), noted at each site.
* The pseudo-random draws of `np.random.normal` are an explicit noise
  argument (one draw per model in `score_features`, one draw per
  feature in `_calculate_tree_shap`), threaded in call order.
-/

namespace NeuroEngine

/-- A raw feature value as found in the request mapping: missing key,
IEEE NaN, positive or negative infinity, or a finite value. -/
inductive RawVal where
  | missing : RawVal
  | nan : RawVal
  | posInf : RawVal
  | negInf : RawVal
  | fin (x : ℚ) : RawVal
deriving DecidableEq

/-- A raw feature mapping: the Python dict passed as `features`. -/
abbrev RawFeatures := List (String × RawVal)

/-- `features.get(name, None)`: first binding of `n`, else missing. -/
def rawGet (f : RawFeatures) (n : String) : RawVal :=
  match f.find? (fun p => p.1 = n) with
  | some p => p.2
  | none => RawVal.missing

/-- `max(0.0, min(1.0, x))`, the clamp used throughout both scripts. -/
def clamp01 (x : ℚ) : ℚ := max 0 (min 1 x)

/-! ### CognitiveModelScorer: configuration (`__init__`, lines 24-47) -/

/-- `self.feature_names` of `CognitiveModelScorer` (12 names, in source
order). -/
def scorerFeatureNames : List String :=
  ["wordCount", "sentenceCount", "averageWordsPerSentence", "typeTokenRatio",
   "vocabularySize", "lexicalDiversity", "complexWordRatio", "averageWordLength",
   "cognitiveHealthScore", "syntacticComplexity", "informationDensity", "hesitationRatio"]

/-- `self.feature_importance` of `CognitiveModelScorer` (10 entries, in
source insertion order, which is also the iteration order of the Python
dict). -/
def featureImportance : List (String × ℚ) :=
  [("cognitiveHealthScore", 22/100),
   ("syntacticComplexity", 18/100),
   ("lexicalDiversity", 15/100),
   ("informationDensity", 12/100),
   ("hesitationRatio", 10/100),
   ("vocabularySize", 8/100),
   ("typeTokenRatio", 6/100),
   ("complexWordRatio", 4/100),
   ("averageWordLength", 3/100),
   ("averageWordsPerSentence", 2/100)]

/-- The four mock models built by `_load_models` (dict insertion order). -/
inductive MType where
  | randomForest : MType
  | gradientBoosting : MType
  | neuralNetwork : MType
  | svm : MType
deriving DecidableEq

/-- `self.models` iteration order in `_get_ensemble_predictions`. -/
def modelList : List MType :=
  [MType.randomForest, MType.gradientBoosting, MType.neuralNetwork, MType.svm]

/-- The `accuracy` stored for each mock model in `_load_models`. -/
def accuracy : MType → ℚ
  | MType.randomForest => 89/100
  | MType.gradientBoosting => 91/100
  | MType.neuralNetwork => 87/100
  | MType.svm => 85/100

/-- The per-model bias applied to each contribution in
`_simulate_model_prediction` (the if/elif ladder on `model_info` type,
lines 178-185). -/
def biasMultiplier : MType → ℚ
  | MType.randomForest => 105/100
  | MType.gradientBoosting => 98/100
  | MType.neuralNetwork => 102/100
  | MType.svm => 96/100

/-! ### `_prepare_feature_vector` (scorer, lines 129-144) -/

/-- One entry of the scorer's `_prepare_feature_vector`: a present value
that passes `not np.isnan(value)` is clamped by
`max(0.0, min(1.0, float(value)))`; a missing or NaN entry becomes 0.5.
`np.isnan` is false on infinities, so they reach the clamp, where IEEE
gives `min(1.0, +inf) = 1.0` and `max(0.0, -inf) = 0.0`; the `posInf`
and `negInf` arms record those IEEE results. -/
def normalizeScorerValue : RawVal → ℚ
  | RawVal.missing => 1/2
  | RawVal.nan => 1/2
  | RawVal.posInf => 1
  | RawVal.negInf => 0
  | RawVal.fin x => clamp01 x

/-- `_prepare_feature_vector`: one entry per `feature_names` element. -/
def prepareFeatureVector (f : RawFeatures) : List ℚ :=
  scorerFeatureNames.map (fun n => normalizeScorerValue (rawGet f n))

/-! ### `_simulate_model_prediction` (lines 164-194) -/

/-- The accumulation loop of `_simulate_model_prediction` before noise
and clamping: `for i, (feature_name, importance) in
enumerate(self.feature_importance.items())`, guarded by
`i < len(feature_vector)`, adding `feature_vector[i] * importance`
times the model bias.  Note the source indexes the vector by the
position `i` of the entry inside `feature_importance`, not by
`feature_name`. -/
def modelPredictionRaw (vec : List ℚ) (m : MType) : ℚ :=
  (featureImportance.enum.map (fun p =>
    if p.1 < vec.length then vec.getD p.1 0 * p.2.2 * biasMultiplier m else 0)).sum

/-- The vector value belonging to feature `n`: the entry at the
position of `n` inside `feature_names`. -/
def vecValueByName (vec : List ℚ) (n : String) : ℚ :=
  match (scorerFeatureNames.zip vec).find? (fun q => q.1 = n) with
  | some q => q.2
  | none => 1/2

/-- Modelled from the claim's words (C3), for comparison with
`modelPredictionRaw`: the sum over exactly the features that have a
defined weight in `feature_importance` of that feature's own vector
value times that same feature's weight, each term times the model
bias. -/
def specPredictionRaw (vec : List ℚ) (m : MType) : ℚ :=
  (featureImportance.map (fun p =>
    vecValueByName vec p.1 * p.2 * biasMultiplier m)).sum

/-- `_simulate_model_prediction`: raw weighted sum plus one noise draw,
clamped to `[0,1]`. -/
def simulateModelPrediction (vec : List ℚ) (m : MType) (noise : ℚ) : ℚ :=
  clamp01 (modelPredictionRaw vec m + noise)

/-- `_get_ensemble_predictions`: one prediction per model (none of the
four mock models can raise, so the `except: continue` arm is dead). -/
def getEnsemblePredictions (vec : List ℚ) (noise : MType → ℚ) : List (MType × ℚ) :=
  modelList.map (fun m => (m, simulateModelPrediction vec m (noise m)))

/-! ### `_calculate_ensemble_score` (lines 196-218) -/

/-- The `weighted_sum` accumulator of `_calculate_ensemble_score`. -/
def sumWeighted (preds : List (MType × ℚ)) : ℚ :=
  (preds.map (fun p => p.2 * accuracy p.1)).sum

/-- The `total_weight` accumulator of `_calculate_ensemble_score`. -/
def sumAccuracy (preds : List (MType × ℚ)) : ℚ :=
  (preds.map (fun p => accuracy p.1)).sum

/-- `_calculate_ensemble_score`: 0.5 on an empty prediction map, 0.5 on
zero total weight, otherwise the accuracy-weighted mean clamped to
`[0,1]`. -/
def ensembleScore (preds : List (MType × ℚ)) : ℚ :=
  if preds = [] then 1/2
  else if sumAccuracy preds = 0 then 1/2
  else clamp01 (sumWeighted preds / sumAccuracy preds)

/-! ### `_calculate_prediction_confidence` (lines 220-248) -/

/-- `np.mean` of a list. -/
def listMean (l : List ℚ) : ℚ := l.sum / l.length

/-- The square of `np.std` (population variance, `ddof = 0`). -/
def listVariance (l : List ℚ) : ℚ :=
  ((l.map (fun x => (x - listMean l)^2)).sum) / l.length

/-- `np.std`: square root of the population variance. -/
noncomputable def listStd (l : List ℚ) : ℝ := Real.sqrt ((listVariance l : ℚ) : ℝ)

/-- The completeness bonus of `_calculate_prediction_confidence`
(lines 238-241): `non_null_features / len(self.feature_names) * 0.2`.
The count `sum(1 for f in feature_vector if f is not None and not
np.isnan(f))` runs over the prepared vector, whose entries are always
non-null finite floats, so it equals the vector's length. -/
def completenessBonus (vec : List ℚ) : ℚ :=
  ((vec.length : ℚ) / (scorerFeatureNames.length : ℚ)) * (2/10)

/-- Modelled from the claim's words (C6), for comparison with
`completenessBonus`: the count of features originally present and
finite in the raw mapping, divided by the number of enumerated
features, times 0.2. -/
def specCompletenessBonus (f : RawFeatures) : ℚ :=
  (((scorerFeatureNames.countP (fun n =>
      match rawGet f n with
      | RawVal.fin _ => true
      | _ => false)) : ℚ) / (scorerFeatureNames.length : ℚ)) * (2/10)

/-- `_calculate_prediction_confidence`: 0.3 on no predictions; else a
base from model agreement (0.7 for a single prediction, otherwise
`max(0.5, 1 - 2*std)`), plus the completeness bonus, plus the extremity
bonus `|mean - 0.5| * 0.1`, clamped to `[0.3, 0.95]`. -/
noncomputable def predictionConfidence (preds : List ℚ) (vec : List ℚ) : ℝ :=
  if preds = [] then 3/10
  else
    let base : ℝ :=
      if preds.length = 1 then 7/10
      else max (1/2) (1 - 2 * listStd preds)
    let comp : ℝ := ((completenessBonus vec : ℚ) : ℝ)
    let extreme : ℝ := |((listMean preds : ℚ) : ℝ) - 1/2| * (1/10)
    max (3/10) (min (95/100) (base + comp + extreme))

/-! ### `score_features` result assembly (lines 80-127) -/

/-- The fields of the scoring response that the specification's claims
are about. -/
structure ScoreResult where
  riskScore : ℚ
  confidence : ℝ
  modelType : String
  error : Option String

/-- The recognized request options (section 6 of the specification).
`score_features` receives `options` but never reads it. -/
structure ScoreOpts where
  noiseSeed : Option Int

/-- The successful path of `score_features`, parameterized by the
surviving model predictions (the output of
`_get_ensemble_predictions`): risk score, confidence, and the fixed
markers `modelType = "ensemble"`, no error field. -/
noncomputable def scoreFeaturesWith (features : RawFeatures) (preds : List (MType × ℚ)) : ScoreResult :=
  ⟨ensembleScore preds,
   predictionConfidence (preds.map (fun p => p.2)) (prepareFeatureVector features),
   "ensemble",
   none⟩

/-- `score_features` on the successful path: prepare the vector, get
the four model predictions (each with its noise draw), and assemble the
result.  The `options` argument is accepted and ignored, as in the
source. -/
noncomputable def scoreFeatures (features : RawFeatures) (opts : ScoreOpts) (noise : MType → ℚ) : ScoreResult :=
  scoreFeaturesWith features (getEnsemblePredictions (prepareFeatureVector features) noise)

/-! ### `_fallback_scoring` (lines 274-299) -/

/-- The rule-based score of `_fallback_scoring`: start at 0.5; if
`cognitiveHealthScore` is in the raw mapping blend it 70/30 with the
current score; if `hesitationRatio` is in the raw mapping subtract
`hesitationRatio * 0.2` and floor at 0.  The source reads the raw
values directly (no normalization).  A present non-finite value would
propagate through the IEEE arithmetic and cannot be represented in `ℚ`;
the theorems about this function therefore assume present values are
finite, and the non-finite arms here fall back to the untouched
score. -/
def fallbackRiskScore (f : RawFeatures) : ℚ :=
  let base : ℚ := 1/2
  let afterChs : ℚ :=
    match rawGet f ("cognitiveHealthScore") with
    | RawVal.fin x => x * (7/10) + base * (3/10)
    | _ => base
  match rawGet f ("hesitationRatio") with
  | RawVal.fin y => max 0 (afterChs - y * (2/10))
  | _ => afterChs

/-- `_fallback_scoring`: the rule-based score, confidence fixed at 0.4,
`modelType = "fallback"`, and the error message recorded. -/
noncomputable def fallbackScoring (f : RawFeatures) (errMsg : String) : ScoreResult :=
  ⟨fallbackRiskScore f, 4/10, "fallback", some errMsg⟩

/-- An acceptable raw entry: absent, or a finite value already in
`[0,1]`. -/
def entryOK : RawVal → Prop
  | RawVal.missing => True
  | RawVal.nan => False
  | RawVal.posInf => False
  | RawVal.negInf => False
  | RawVal.fin x => 0 ≤ x ∧ x ≤ 1

instance : DecidablePred entryOK := fun v =>
  match v with
  | RawVal.missing => Decidable.isTrue trivial
  | RawVal.nan => Decidable.isFalse (fun h => h)
  | RawVal.posInf => Decidable.isFalse (fun h => h)
  | RawVal.negInf => Decidable.isFalse (fun h => h)
  | RawVal.fin x => inferInstanceAs (Decidable (0 ≤ x ∧ x ≤ 1))

/-- Well-formed raw input: every bound value is finite and already in
`[0,1]` (the documented precondition of `score_features`: a dictionary
of normalized feature values). -/
def WellFormed (f : RawFeatures) : Prop :=
  ∀ p ∈ f, entryOK p.2

instance (f : RawFeatures) : Decidable (WellFormed f) :=
  List.decidableBAll _ f

/-! ### CognitiveShapExplainer: configuration (`__init__`, lines 40-83) -/

/-- `self.feature_names` of `CognitiveShapExplainer` (13 names). -/
def shapFeatureNames : List String :=
  ["wordCount", "sentenceCount", "averageWordsPerSentence", "typeTokenRatio",
   "vocabularySize", "lexicalDiversity", "complexWordRatio", "averageWordLength",
   "cognitiveHealthScore", "syntacticComplexity", "informationDensity", "hesitationRatio",
   "sentimentScore"]

/-- `self.feature_weights` of `CognitiveShapExplainer` (13 signed
entries; `hesitationRatio` is negative). -/
def featureWeights : List (String × ℚ) :=
  [("cognitiveHealthScore", 25/100),
   ("syntacticComplexity", 18/100),
   ("lexicalDiversity", 15/100),
   ("informationDensity", 12/100),
   ("hesitationRatio", -(10/100)),
   ("vocabularySize", 8/100),
   ("typeTokenRatio", 6/100),
   ("complexWordRatio", 4/100),
   ("averageWordLength", 3/100),
   ("averageWordsPerSentence", 2/100),
   ("wordCount", 2/100),
   ("sentenceCount", 1/100),
   ("sentimentScore", 4/100)]

/-- `self.feature_weights.get(name, 0.01)`. -/
def getWeight (n : String) : ℚ :=
  match featureWeights.find? (fun p => p.1 = n) with
  | some p => p.2
  | none => 1/100

/-- `self.feature_ranges` of `CognitiveShapExplainer`. -/
def featureRanges : List (String × (ℚ × ℚ)) :=
  [("wordCount", (10, 500)),
   ("sentenceCount", (2, 50)),
   ("averageWordsPerSentence", (5, 25)),
   ("typeTokenRatio", (3/10, 1)),
   ("vocabularySize", (20, 400)),
   ("lexicalDiversity", (3/10, 1)),
   ("complexWordRatio", (0, 5/10)),
   ("averageWordLength", (3, 8)),
   ("cognitiveHealthScore", (0, 1)),
   ("syntacticComplexity", (0, 1)),
   ("informationDensity", (0, 1)),
   ("hesitationRatio", (0, 3/10)),
   ("sentimentScore", (-2, 2))]

/-- Range lookup: `self.feature_ranges[feature_name]` when present. -/
def rangeOf (n : String) : Option (ℚ × ℚ) :=
  match featureRanges.find? (fun p => p.1 = n) with
  | some p => some p.2
  | none => none

/-- `_normalize_feature` (lines 157-166): plain clamp when the feature
has no configured range, otherwise linear rescale into `[0,1]` followed
by the clamp. -/
def normalizeFeature (n : String) (v : ℚ) : ℚ :=
  match rangeOf n with
  | none => clamp01 v
  | some r => clamp01 ((v - r.1) / (r.2 - r.1))

/-- One entry of the explainer's `_prepare_feature_vector`
(lines 138-155): missing or NaN entries become 0.5; other present
values go through `_normalize_feature`.  `np.isnan` is false on
infinities, so `+inf` reaches the rescale-and-clamp, where IEEE gives
`(+inf - lo) / (hi - lo) = +inf` (every configured range has
`hi > lo`), clamped to 1; symmetrically `-inf` clamps to 0.  The
`posInf` and `negInf` arms record those IEEE results. -/
def shapNormalizeValue (n : String) : RawVal → ℚ
  | RawVal.missing => 1/2
  | RawVal.nan => 1/2
  | RawVal.posInf => 1
  | RawVal.negInf => 0
  | RawVal.fin x => normalizeFeature n x

/-- The explainer's `_prepare_feature_vector`: an ordered mapping with
one entry per `feature_names` element (a Python dict built in that
order). -/
def shapPrepare (f : RawFeatures) : List (String × ℚ) :=
  shapFeatureNames.map (fun n => (n, shapNormalizeValue n (rawGet f n)))

/-! ### `_calculate_tree_shap` (lines 182-220) -/

/-- The `weighted_sum` accumulator of `_calculate_tree_shap`:
`Σ abs(weight)` over the prepared vector's features. -/
def absWeightSum (vec : List (String × ℚ)) : ℚ :=
  (vec.map (fun p => |getWeight p.1|)).sum

/-- The per-feature values of `_calculate_tree_shap` before the final
rescaling: `base = (value - 0.5) * weight`, scaled by
`total_contribution / weighted_sum` when `weighted_sum > 0` (else 0),
plus one noise draw per feature. -/
def treeShapPre (vec : List (String × ℚ)) (risk : ℚ) (noise : String → ℚ) : List (String × ℚ) :=
  let total := risk - 1/2
  let wsum := absWeightSum vec
  vec.map (fun p =>
    let base := (p.2 - 1/2) * getWeight p.1
    let scaled := if 0 < wsum then base * (total / wsum) else 0
    (p.1, scaled + noise p.1))

/-- `_calculate_tree_shap`: compute the pre-rescale values, then, when
their sum `current_sum` is non-zero, multiply every value by
`total_contribution / current_sum`; when the sum is exactly zero the
values are returned unchanged. -/
def treeShap (vec : List (String × ℚ)) (risk : ℚ) (noise : String → ℚ) : List (String × ℚ) :=
  let pre := treeShapPre vec risk noise
  let s := (pre.map (fun p => p.2)).sum
  if s ≠ 0 then pre.map (fun p => (p.1, p.2 * ((risk - 1/2) / s)))
  else pre

/-- Modelled from the claim's words (C1): the sum of the raw
per-feature contributions `(value - 0.5) * weight` of an attribution
call, used to state the claim's non-degeneracy condition. -/
def rawContributionSum (vec : List (String × ℚ)) : ℚ :=
  (vec.map (fun p => (p.2 - 1/2) * getWeight p.1)).sum

/-! ### `_calculate_approximate_shap` (lines 222-242) -/

/-- `_calculate_approximate_shap`: linear approximation with
`contribution = (value - 0.5) * weight * (total_contribution /
total_weight)` when `total_weight > 0`, else 0.  No rescaling pass
follows. -/
def approximateShap (vec : List (String × ℚ)) (risk : ℚ) : List (String × ℚ) :=
  let total := risk - 1/2
  let wsum := absWeightSum vec
  vec.map (fun p =>
    (p.1, if 0 < wsum then (p.2 - 1/2) * getWeight p.1 * (total / wsum) else 0))

/-! ## Helper lemmas -/

theorem clamp01_mem (x : ℚ) : 0 ≤ clamp01 x ∧ clamp01 x ≤ 1 :=
  ⟨le_max_left 0 _, max_le zero_le_one (min_le_left 1 x)⟩

theorem clamp01_of_mem {x : ℚ} (h0 : 0 ≤ x) (h1 : x ≤ 1) : clamp01 x = x := by
  unfold clamp01
  rw [min_eq_right h1, max_eq_right h0]

theorem accuracy_pos (m : MType) : 0 < accuracy m := by
  cases m <;> norm_num [accuracy]

theorem sum_map_snd_scale (l : List (String × ℚ)) (c : ℚ) :
    ((l.map (fun p => (p.1, p.2 * c))).map (fun p => p.2)).sum
      = ((l.map (fun p => p.2)).sum) * c := by
  rw [List.map_map]
  have : ((fun p : String × ℚ => p.2) ∘ (fun p : String × ℚ => (p.1, p.2 * c)))
      = fun p : String × ℚ => p.2 * c := rfl
  rw [this, List.sum_map_mul_right]

theorem wellFormed_rawGet {f : RawFeatures} (h : WellFormed f) (n : String) :
    rawGet f n = RawVal.missing ∨
      ∃ x, rawGet f n = RawVal.fin x ∧ 0 ≤ x ∧ x ≤ 1 := by
  have hg : rawGet f n =
      (match f.find? (fun p => p.1 = n) with
        | some p => p.2
        | none => RawVal.missing) := rfl
  cases hfind : f.find? (fun p => p.1 = n) with
  | none =>
    left
    rw [hg, hfind]
  | some p =>
    have hok : entryOK p.2 := h p (List.mem_of_find?_eq_some hfind)
    have hval : rawGet f n = p.2 := by rw [hg, hfind]
    cases hv : p.2 with
    | missing => left; rw [hval, hv]
    | nan => rw [hv] at hok; exact hok.elim
    | posInf => rw [hv] at hok; exact hok.elim
    | negInf => rw [hv] at hok; exact hok.elim
    | fin x =>
      rw [hv] at hok
      exact Or.inr ⟨x, by rw [hval, hv], hok⟩

/-! ## Claims -/

/-- C2 (counterexample): when the ensemble produces no surviving
prediction, `score_features` does return risk 0.5 and confidence 0.3,
but the result's `modelType` is `"ensemble"`, not `"fallback"`, and no
degradation marker is set. -/
theorem ensemble_empty_not_marked_fallback :
    (scoreFeaturesWith [] []).riskScore = 1/2 ∧
    (scoreFeaturesWith [] []).confidence = 3/10 ∧
    (scoreFeaturesWith [] []).modelType = "ensemble" ∧
    (scoreFeaturesWith [] []).modelType ≠ "fallback" ∧
    (scoreFeaturesWith [] []).error = none := by
  refine ⟨rfl, rfl, rfl, by decide, rfl⟩

/-- C2 (amended): whenever the ensemble produces no surviving model
prediction, the scoring result has risk score 0.5 and confidence
exactly 0.3, with `modelType` still `"ensemble"` and no error field:
the `"fallback"` marker only appears on the exception path. -/
theorem ensemble_empty_neutral_result (features : RawFeatures) :
    scoreFeaturesWith features [] =
      ⟨1/2, 3/10, "ensemble", none⟩ := rfl

/-- C3 (code bug): `_simulate_model_prediction` pairs the vector entry
at position `i` of the weight table's iteration order with the weight
at that position, rather than pairing each feature's own value with its
own weight.  On a raw mapping with only `wordCount = 1.0` the code
yields 0.6405 for the RandomForest model (wordCount's value times
cognitiveHealthScore's weight 0.22, plus the defaults), while the
claimed by-name sum yields 0.525. -/
theorem model_prediction_misaligned :
    modelPredictionRaw (prepareFeatureVector [("wordCount", RawVal.fin 1)])
        MType.randomForest = 1281/2000 ∧
    specPredictionRaw (prepareFeatureVector [("wordCount", RawVal.fin 1)])
        MType.randomForest = 21/40 ∧
    ((1281 : ℚ)/2000 ≠ 21/40) := by
  refine ⟨by with_unfolding_all rfl, by with_unfolding_all rfl, by norm_num⟩

/-- C5 (counterexample): a present `+inf` entry is not replaced by 0.5:
`np.isnan` is false on infinities, so both normalizers clamp it to 1. -/
theorem normalize_infinite_cex :
    normalizeScorerValue RawVal.posInf = 1 ∧
    shapNormalizeValue ("wordCount") RawVal.posInf = 1 ∧
    ((1 : ℚ) ≠ 1/2) := by
  refine ⟨rfl, by decide, by norm_num⟩

/-- C5 (amended): both normalizers always output values in `[0,1]`;
missing or NaN entries become exactly 0.5; a present finite value is
clamped (scorer) or, where a feature range is configured, linearly
rescaled then clamped (explainer); infinities are clamped to the
nearest bound rather than defaulted to 0.5. -/
theorem normalizer_bounds :
    (∀ v : RawVal, 0 ≤ normalizeScorerValue v ∧ normalizeScorerValue v ≤ 1) ∧
    (normalizeScorerValue RawVal.missing = 1/2 ∧
      normalizeScorerValue RawVal.nan = 1/2) ∧
    (∀ x : ℚ, normalizeScorerValue (RawVal.fin x) = clamp01 x) ∧
    (∀ (n : String) (v : RawVal),
      0 ≤ shapNormalizeValue n v ∧ shapNormalizeValue n v ≤ 1) ∧
    (∀ n : String, shapNormalizeValue n RawVal.missing = 1/2 ∧
      shapNormalizeValue n RawVal.nan = 1/2) ∧
    (∀ (n : String) (x lo hi : ℚ), rangeOf n = some (lo, hi) →
      shapNormalizeValue n (RawVal.fin x) = clamp01 ((x - lo) / (hi - lo))) := by
  refine ⟨?_, ⟨rfl, rfl⟩, fun x => rfl, ?_, fun n => ⟨rfl, rfl⟩, ?_⟩
  · intro v
    cases v with
    | missing => norm_num [normalizeScorerValue]
    | nan => norm_num [normalizeScorerValue]
    | posInf => norm_num [normalizeScorerValue]
    | negInf => norm_num [normalizeScorerValue]
    | fin x => exact clamp01_mem x
  · intro n v
    cases v with
    | missing => norm_num [shapNormalizeValue]
    | nan => norm_num [shapNormalizeValue]
    | posInf => norm_num [shapNormalizeValue]
    | negInf => norm_num [shapNormalizeValue]
    | fin x =>
      show 0 ≤ normalizeFeature n x ∧ normalizeFeature n x ≤ 1
      unfold normalizeFeature
      cases rangeOf n with
      | none => exact clamp01_mem x
      | some r => exact clamp01_mem _
  · intro n x lo hi h
    show normalizeFeature n x = clamp01 ((x - lo) / (hi - lo))
    unfold normalizeFeature
    rw [h]

/-- C5 (witness for `normalizer_bounds`): the rescale branch evaluated
at the configured `wordCount` range. -/
theorem normalizer_bounds_witness :
    rangeOf ("wordCount") = some (10, 500) ∧
    shapNormalizeValue ("wordCount") (RawVal.fin 255)
      = clamp01 ((255 - 10) / (500 - 10)) :=
  ⟨by decide,
   normalizer_bounds.2.2.2.2.2 ("wordCount") 255 10 500 (by decide)⟩

/-- C6 (code bug): the completeness count of
`_calculate_prediction_confidence` runs over the prepared feature
vector, which always holds one non-null finite entry per enumerated
feature, so the completeness bonus is 0.2 for every raw input — in
particular for the empty raw mapping, where the claimed formula over
originally-present finite raw features gives 0. -/
theorem completeness_bonus_constant :
    completenessBonus (prepareFeatureVector []) = 1/5 ∧
    specCompletenessBonus [] = 0 ∧
    (∀ f : RawFeatures, completenessBonus (prepareFeatureVector f) = 1/5) := by
  refine ⟨by with_unfolding_all rfl, by with_unfolding_all rfl, fun f => ?_⟩
  have h : (prepareFeatureVector f).length = 12 := by
    simp [prepareFeatureVector, scorerFeatureNames]
  show ((prepareFeatureVector f).length : ℚ)
      / (scorerFeatureNames.length : ℚ) * (2/10) = 1/5
  rw [h]
  norm_num [scorerFeatureNames]

/-- C1 (counterexample): the linear-approximation path does not
conserve.  With only `cognitiveHealthScore = 1.0` supplied and risk
score 0.9, the raw contributions sum to 1/8 (non-degenerate), yet the
emitted values sum to 1/22, which misses the target 0.4 by far more
than the 1e-6 tolerance (both absolutely and relative to the target). -/
theorem approx_shap_breaks_conservation :
    rawContributionSum (shapPrepare [("cognitiveHealthScore", RawVal.fin 1)]) ≠ 0 ∧
    |((approximateShap (shapPrepare [("cognitiveHealthScore", RawVal.fin 1)])
        (9/10)).map (fun p => p.2)).sum - ((9/10 : ℚ) - 1/2)|
      > (1/1000000) * |(9/10 : ℚ) - 1/2| := by
  refine ⟨by with_unfolding_all decide, by with_unfolding_all decide⟩

/-- C1 (amended): on the TreeSHAP path, whenever the sum of the
pre-rescale (noised) per-feature contributions is non-zero, the emitted
attribution values sum exactly to `riskScore - 0.5`; the
linear-approximation path performs no such rescaling and does not
conserve in general. -/
theorem tree_shap_conservation (vec : List (String × ℚ)) (risk : ℚ)
    (noise : String → ℚ)
    (h : ((treeShapPre vec risk noise).map (fun p => p.2)).sum ≠ 0) :
    ((treeShap vec risk noise).map (fun p => p.2)).sum = risk - 1/2 := by
  show ((if ((treeShapPre vec risk noise).map (fun p => p.2)).sum ≠ 0 then
      (treeShapPre vec risk noise).map (fun p =>
        (p.1, p.2 * ((risk - 1/2) / ((treeShapPre vec risk noise).map (fun p => p.2)).sum)))
    else treeShapPre vec risk noise).map (fun p => p.2)).sum = risk - 1/2
  rw [if_pos h, sum_map_snd_scale, mul_comm, div_mul_cancel₀ _ h]

/-- The prepared vector and noise stream of the C1 witness: all-default
features, one non-zero noise draw. -/
def c1vec : List (String × ℚ) := shapPrepare []

/-- The noise stream of the C1 witness. -/
def c1noise : String → ℚ := fun n => if n = "wordCount" then 1/100 else 0

/-- C1 (witness for `tree_shap_conservation`): a concrete call with
pre-rescale sum 1/100 whose emitted values sum exactly to 0.4. -/
theorem tree_shap_conservation_witness :
    ((treeShapPre c1vec (9/10) c1noise).map (fun p => p.2)).sum ≠ 0 ∧
    ((treeShap c1vec (9/10) c1noise).map (fun p => p.2)).sum = (9/10 : ℚ) - 1/2 :=
  ⟨by with_unfolding_all decide,
   tree_shap_conservation c1vec (9/10) c1noise (by with_unfolding_all decide)⟩

/-- C4 (counterexample): a raw mapping is not required to be
pre-normalized, and the fallback path reads it unclamped: with
`cognitiveHealthScore = 3.0` the fallback risk score is 2.25, outside
`[0,1]`. -/
theorem fallback_out_of_range_cex :
    fallbackRiskScore [("cognitiveHealthScore", RawVal.fin 3)] = 9/4 ∧
    ¬((9 : ℚ)/4 ≤ 1) := by
  refine ⟨by with_unfolding_all rfl, by norm_num⟩

/-- C4 (amended): the ensemble score always lies in `[0,1]` and the
confidence always lies in `[0.3, 0.95]`; the fallback risk score lies
in `[0,1]` (with confidence exactly 0.4) provided every present raw
value is finite and already in `[0,1]` — out-of-range raw values
escape `[0,1]` on the fallback path. -/
theorem scoring_bounds :
    (∀ preds : List (MType × ℚ),
      0 ≤ ensembleScore preds ∧ ensembleScore preds ≤ 1) ∧
    (∀ (preds : List ℚ) (vec : List ℚ),
      (3/10 : ℝ) ≤ predictionConfidence preds vec ∧
        predictionConfidence preds vec ≤ 95/100) ∧
    (∀ (f : RawFeatures) (e : String), WellFormed f →
      (0 ≤ fallbackRiskScore f ∧ fallbackRiskScore f ≤ 1) ∧
        (fallbackScoring f e).confidence = 4/10) := by
  refine ⟨?_, ?_, ?_⟩
  · intro preds
    unfold ensembleScore
    split
    · norm_num
    · split
      · norm_num
      · exact clamp01_mem _
  · intro preds vec
    unfold predictionConfidence
    split
    · norm_num
    · refine ⟨le_max_left _ _, max_le (by norm_num) (min_le_left _ _)⟩
  · intro f e hWF
    refine ⟨?_, rfl⟩
    rcases wellFormed_rawGet hWF ("cognitiveHealthScore") with hc | ⟨x, hc, hx0, hx1⟩ <;>
      rcases wellFormed_rawGet hWF ("hesitationRatio") with hh | ⟨y, hh, hy0, hy1⟩ <;>
      simp only [fallbackRiskScore, hc, hh]
    · norm_num
    · constructor
      · exact le_max_left 0 _
      · exact max_le (by norm_num) (by linarith)
    · constructor
      · linarith
      · linarith
    · constructor
      · exact le_max_left 0 _
      · exact max_le (by norm_num) (by linarith)

/-- C4 (witness for `scoring_bounds`): the fallback conjunct evaluated
at a well-formed one-entry mapping. -/
theorem scoring_bounds_witness :
    WellFormed [("cognitiveHealthScore", RawVal.fin (4/5))] ∧
    ((0 ≤ fallbackRiskScore [("cognitiveHealthScore", RawVal.fin (4/5))] ∧
      fallbackRiskScore [("cognitiveHealthScore", RawVal.fin (4/5))] ≤ 1) ∧
     (fallbackScoring [("cognitiveHealthScore", RawVal.fin (4/5))] ("err")).confidence
        = 4/10) :=
  ⟨by with_unfolding_all decide,
   scoring_bounds.2.2 [("cognitiveHealthScore", RawVal.fin (4/5))] ("err")
     (by with_unfolding_all decide)⟩

/-- C7 (counterexample): the scripts never read the options record, so
supplying a fixed `noiseSeed` does not make repeated calls
bit-identical: two calls on the same features and the same options,
differing only in the ambient pseudo-random draws, produce different
risk scores. -/
theorem fixed_seed_not_bit_identical :
    (scoreFeatures [] ⟨some 42⟩ (fun _ => 0)).riskScore ≠
    (scoreFeatures [] ⟨some 42⟩ (fun _ => 1/100)).riskScore := by
  with_unfolding_all decide

/-- C7 (amended): the scoring result is a function of the features and
the ambient pseudo-random draws only; the options record — including
any `noiseSeed` — is ignored, so a seed option cannot influence (and
hence cannot fix) the output. -/
theorem scoring_independent_of_opts (f : RawFeatures) (o₁ o₂ : ScoreOpts)
    (noise : MType → ℚ) :
    scoreFeatures f o₁ noise = scoreFeatures f o₂ noise := rfl

/-- C8 (counterexample): the claimed rule omits the hesitation penalty:
with only `hesitationRatio = 0.5` supplied (primary feature absent),
the fallback risk score is 0.4, not the claimed 0.5. -/
theorem fallback_absent_primary_cex :
    rawGet [("hesitationRatio", RawVal.fin (1/2))] ("cognitiveHealthScore")
      = RawVal.missing ∧
    fallbackRiskScore [("hesitationRatio", RawVal.fin (1/2))] = 2/5 ∧
    ((2 : ℚ)/5 ≠ 1/2) := by
  refine ⟨by with_unfolding_all rfl, by with_unfolding_all rfl, by norm_num⟩

/-- C8 (amended): the fallback result has confidence exactly 0.4, the
degradation marker `modelType = "fallback"`, and the error description;
its risk score is the 70/30 blend of the primary feature with 0.5 when
that feature is present (else 0.5), additionally reduced by
`hesitationRatio * 0.2` and floored at 0 when `hesitationRatio` is
present.  (Present non-finite values are outside this statement: the
source would propagate them through IEEE arithmetic.) -/
theorem fallback_result_fields (f : RawFeatures) (e : String) :
    (fallbackScoring f e).confidence = 4/10 ∧
    (fallbackScoring f e).modelType = "fallback" ∧
    (fallbackScoring f e).error = some e ∧
    (rawGet f ("cognitiveHealthScore") = RawVal.missing →
      rawGet f ("hesitationRatio") = RawVal.missing →
      (fallbackScoring f e).riskScore = 1/2) ∧
    (∀ x : ℚ, rawGet f ("cognitiveHealthScore") = RawVal.fin x →
      rawGet f ("hesitationRatio") = RawVal.missing →
      (fallbackScoring f e).riskScore = x * (7/10) + (1/2) * (3/10)) ∧
    (∀ y : ℚ, rawGet f ("cognitiveHealthScore") = RawVal.missing →
      rawGet f ("hesitationRatio") = RawVal.fin y →
      (fallbackScoring f e).riskScore = max 0 (1/2 - y * (2/10))) ∧
    (∀ x y : ℚ, rawGet f ("cognitiveHealthScore") = RawVal.fin x →
      rawGet f ("hesitationRatio") = RawVal.fin y →
      (fallbackScoring f e).riskScore
        = max 0 (x * (7/10) + (1/2) * (3/10) - y * (2/10))) := by
  refine ⟨rfl, rfl, rfl, ?_, ?_, ?_, ?_⟩
  · intro hc hh
    show fallbackRiskScore f = 1/2
    simp only [fallbackRiskScore, hc, hh]
  · intro x hc hh
    show fallbackRiskScore f = x * (7/10) + (1/2) * (3/10)
    simp only [fallbackRiskScore, hc, hh]
  · intro y hc hh
    show fallbackRiskScore f = max 0 (1/2 - y * (2/10))
    simp only [fallbackRiskScore, hc, hh]
  · intro x y hc hh
    show fallbackRiskScore f = max 0 (x * (7/10) + (1/2) * (3/10) - y * (2/10))
    simp only [fallbackRiskScore, hc, hh]

/-- C8 (witness for `fallback_result_fields`): both keys present. -/
theorem fallback_result_fields_witness :
    (fallbackScoring
        [("cognitiveHealthScore", RawVal.fin (4/5)), ("hesitationRatio", RawVal.fin (1/2))]
        ("boom")).riskScore
      = max 0 ((4/5) * (7/10) + (1/2) * (3/10) - (1/2) * (2/10)) :=
  (fallback_result_fields
      [("cognitiveHealthScore", RawVal.fin (4/5)), ("hesitationRatio", RawVal.fin (1/2))]
      ("boom")).2.2.2.2.2.2 (4/5) (1/2)
    (by with_unfolding_all rfl) (by with_unfolding_all rfl)

/-- The prepared input of the C9 counterexample: two features whose
scaled contributions cancel exactly (`cognitiveHealthScore` normalizes
to 0.6, `hesitationRatio` to 0.75), all other deviations zero. -/
def c9vec : List (String × ℚ) :=
  shapPrepare [("cognitiveHealthScore", RawVal.fin (3/5)),
               ("hesitationRatio", RawVal.fin (9/40))]

/-- C9 (counterexample): with the pre-rescale sum exactly zero and the
target 0.4 non-zero, the code does not zero the contributions (the
`cognitiveHealthScore` entry is 1/110) and sets no degraded flag
anywhere in the attribution result. -/
theorem degenerate_not_zeroed_cex :
    ((treeShapPre c9vec (9/10) (fun _ => 0)).map (fun p => p.2)).sum = 0 ∧
    (treeShap c9vec (9/10) (fun _ => 0)).find?
        (fun p => p.1 = "cognitiveHealthScore")
      = some ("cognitiveHealthScore", 1/110) ∧
    ((1 : ℚ)/110 ≠ 0) ∧
    ((9/10 : ℚ) - 1/2 ≠ 0) := by
  refine ⟨by with_unfolding_all rfl, by with_unfolding_all rfl,
    by norm_num, by norm_num⟩

/-- C9 (amended): when the pre-rescale sum is exactly zero the final
rescaling is skipped and the (noised, scaled) contributions are emitted
unchanged; their sum is 0 (so conservation fails whenever the target is
non-zero), and no per-feature zeroing and no degraded marking takes
place. -/
theorem tree_shap_degenerate (vec : List (String × ℚ)) (risk : ℚ)
    (noise : String → ℚ)
    (h : ((treeShapPre vec risk noise).map (fun p => p.2)).sum = 0) :
    treeShap vec risk noise = treeShapPre vec risk noise ∧
    ((treeShap vec risk noise).map (fun p => p.2)).sum = 0 := by
  have h1 : treeShap vec risk noise = treeShapPre vec risk noise := by
    show (if ((treeShapPre vec risk noise).map (fun p => p.2)).sum ≠ 0 then
        (treeShapPre vec risk noise).map (fun p =>
          (p.1, p.2 * ((risk - 1/2) / ((treeShapPre vec risk noise).map (fun p => p.2)).sum)))
      else treeShapPre vec risk noise) = treeShapPre vec risk noise
    rw [if_neg (fun hne => hne h)]
  exact ⟨h1, by rw [h1]; exact h⟩

/-- C9 (witness for `tree_shap_degenerate`): the cancelling input. -/
theorem tree_shap_degenerate_witness :
    treeShap c9vec (9/10) (fun _ => 0) = treeShapPre c9vec (9/10) (fun _ => 0) ∧
    ((treeShap c9vec (9/10) (fun _ => 0)).map (fun p => p.2)).sum = 0 :=
  tree_shap_degenerate c9vec (9/10) (fun _ => 0) (by with_unfolding_all rfl)

/-- C10: on a non-empty prediction map with every prediction in
`[0,1]`, the ensemble score equals the accuracy-weighted mean of the
predictions, and it lies between any lower and upper bound of the
individual predictions — in particular between their minimum and
maximum. -/
theorem ensemble_weighted_mean (preds : List (MType × ℚ)) (hne : preds ≠ [])
    (hb : ∀ p ∈ preds, 0 ≤ p.2 ∧ p.2 ≤ 1) :
    ensembleScore preds = sumWeighted preds / sumAccuracy preds ∧
    ∀ lb ub : ℚ, (∀ p ∈ preds, lb ≤ p.2 ∧ p.2 ≤ ub) →
      lb ≤ ensembleScore preds ∧ ensembleScore preds ≤ ub := by
  have hpos : 0 < sumAccuracy preds := by
    refine List.sum_pos _ ?_ ?_
    · intro x hx
      rcases List.mem_map.1 hx with ⟨p, _, rfl⟩
      exact accuracy_pos p.1
    · intro hmap
      exact hne (List.map_eq_nil_iff.1 hmap)
  have hub : ∀ ub : ℚ, (∀ p ∈ preds, p.2 ≤ ub) →
      sumWeighted preds ≤ ub * sumAccuracy preds := by
    intro ub h
    have h1 : (preds.map (fun p => p.2 * accuracy p.1)).sum
        ≤ (preds.map (fun p => ub * accuracy p.1)).sum :=
      List.sum_le_sum (fun p hp =>
        mul_le_mul_of_nonneg_right (h p hp) (accuracy_pos p.1).le)
    have h2 : (preds.map (fun p => ub * accuracy p.1)).sum
        = ub * sumAccuracy preds := by
      unfold sumAccuracy
      rw [← List.sum_map_mul_left]
    exact le_of_le_of_eq h1 h2
  have hlb : ∀ lb : ℚ, (∀ p ∈ preds, lb ≤ p.2) →
      lb * sumAccuracy preds ≤ sumWeighted preds := by
    intro lb h
    have h1 : (preds.map (fun p => lb * accuracy p.1)).sum
        ≤ (preds.map (fun p => p.2 * accuracy p.1)).sum :=
      List.sum_le_sum (fun p hp =>
        mul_le_mul_of_nonneg_right (h p hp) (accuracy_pos p.1).le)
    have h2 : (preds.map (fun p => lb * accuracy p.1)).sum
        = lb * sumAccuracy preds := by
      unfold sumAccuracy
      rw [← List.sum_map_mul_left]
    exact le_of_eq_of_le h2.symm h1
  have hmem : 0 ≤ sumWeighted preds / sumAccuracy preds ∧
      sumWeighted preds / sumAccuracy preds ≤ 1 := by
    constructor
    · apply div_nonneg ?_ hpos.le
      have := hlb 0 (fun p hp => (hb p hp).1)
      linarith
    · rw [div_le_one hpos]
      have := hub 1 (fun p hp => (hb p hp).2)
      linarith
  have hscore : ensembleScore preds = sumWeighted preds / sumAccuracy preds := by
    unfold ensembleScore
    rw [if_neg hne, if_neg hpos.ne', clamp01_of_mem hmem.1 hmem.2]
  refine ⟨hscore, ?_⟩
  intro lb ub hbd
  rw [hscore]
  constructor
  · rw [le_div_iff₀ hpos]
    exact hlb lb (fun p hp => (hbd p hp).1)
  · rw [div_le_iff₀ hpos]
    exact hub ub (fun p hp => (hbd p hp).2)

/-- C10 (witness for `ensemble_weighted_mean`): a one-model map. -/
theorem ensemble_weighted_mean_witness :
    ensembleScore [(MType.randomForest, 1/2)]
      = sumWeighted [(MType.randomForest, 1/2)] / sumAccuracy [(MType.randomForest, 1/2)] ∧
    ((1 : ℚ)/2 ≤ ensembleScore [(MType.randomForest, 1/2)] ∧
      ensembleScore [(MType.randomForest, 1/2)] ≤ 1/2) :=
  ⟨(ensemble_weighted_mean [(MType.randomForest, 1/2)] (by decide)
      (by with_unfolding_all decide)).1,
   (ensemble_weighted_mean [(MType.randomForest, 1/2)] (by decide)
      (by with_unfolding_all decide)).2 (1/2) (1/2)
     (by with_unfolding_all decide)⟩

end NeuroEngine
